import Mathlib

/-!
Verification of the ID3 / Random Forest classifier core.

The definitions below are a shallow embedding of the Python sources
(`classifier.py`, `id3_util.py`, `id3.py`, `random_forest.py`,
`classifier_evaluation.py`).  Python floats are modelled by real numbers
(for the entropy computations) or by rational numbers (for the exact
ratio and metric computations); a Python expression that can raise an
exception is modelled with `Option`, `none` standing for the raised
exception.
-/

namespace ID3RF

/-- Mirrors `classifier.Category`: the enum with members NONE, POS, NEG. -/
inductive Category where
  | NONE : Category
  | POS : Category
  | NEG : Category
deriving DecidableEq, Repr

/-- Mirrors `Category.values()`: all the categories except NONE, in enum
iteration order. -/
def Category.values : List Category := [Category.POS, Category.NEG]

/-- Mirrors `classifier.Example`: `actual` is fixed at construction,
`predicted` starts as NONE and is overwritten on classification,
`attributes` is the list of sanitized tokens. -/
structure Example where
  actual : Category
  predicted : Category
  attributes : List String
deriving DecidableEq, Repr

instance : Inhabited Example := ⟨⟨Category.NONE, Category.NONE, []⟩⟩

/-- Mirrors `Example.copy_of`: the copy is built as
`Example(example.actual, "")` (which sets `predicted` to NONE) and then
`copy.predicted = example.predicted` and
`copy.attributes = example.attributes` are assigned, so the resulting
value has exactly the same three fields as the original.  In particular
`predicted` is copied over, not reset to NONE. -/
def Example.copy_of (ex : Example) : Example :=
  { actual := ex.actual
    predicted := ex.predicted
    attributes := ex.attributes }

/-- Mirrors `id3_util._entropy`: returns 0 when the probability is
exactly 0 or exactly 1, otherwise the binary Shannon entropy. -/
noncomputable def _entropy (probability : ℝ) : ℝ :=
  if probability = 0 ∨ probability = 1 then 0
  else
    -probability * Real.logb 2 probability
      - (1 - probability) * Real.logb 2 (1 - probability)

/-- Mirrors `id3_util._compute_info_gain` exactly as written.  The two
counting dicts are keyed by `Category.values()`, so the Python
expressions `len(example_count_per_category)` and
`len(attribute_count_per_category)` are the number of keys of those
dicts, namely `Category.values.length` (= 2) — not the number of
examples nor the number of examples containing the attribute. -/
noncomputable def _compute_info_gain (attr : String) (examples : List Example) : ℝ :=
  let posTotal : ℕ := (examples.filter (fun e => decide (e.actual = Category.POS))).length
  let pos_count : ℕ :=
    (examples.filter (fun e =>
      decide (e.actual = Category.POS) && decide (attr ∈ e.attributes))).length
  let neg_count : ℕ :=
    (examples.filter (fun e =>
      decide (e.actual = Category.NEG) && decide (attr ∈ e.attributes))).length
  let example_count : ℕ := Category.values.length
  let attribute_count : ℕ := Category.values.length
  let hc := _entropy ((posTotal : ℝ) / (example_count : ℝ))
  let px1 : ℝ := (attribute_count : ℝ) / (example_count : ℝ)
  let pc1x1 : ℝ := if attribute_count = 0 then 0 else (pos_count : ℝ) / (attribute_count : ℝ)
  let hcx1 := _entropy pc1x1
  let px0 : ℝ := 1 - px1
  let pc1x0 : ℝ := if attribute_count = 0 then 0 else (neg_count : ℝ) / (attribute_count : ℝ)
  let hcx0 := _entropy pc1x0
  hc - (px1 * hcx1 + px0 * hcx0)

/-- Modelled from the spec (for comparison with `_compute_info_gain`):
the information gain as the specification describes it, namely
`baseEntropy - (pPresent * entropyGivenPresent + pAbsent *
entropyGivenAbsent)` where `pPresent` is the fraction of examples
containing the attribute, `entropyGivenPresent` is the entropy of the
fraction of POSITIVE examples among those containing the attribute (0 if
none contain it), `pAbsent = 1 - pPresent` and `entropyGivenAbsent` is
the entropy of the fraction of POSITIVE examples among those lacking the
attribute (0 if none lack it). -/
noncomputable def info_gain_spec (attr : String) (examples : List Example) : ℝ :=
  let total : ℕ := examples.length
  let containing : ℕ := (examples.filter (fun e => decide (attr ∈ e.attributes))).length
  let lacking : ℕ := (examples.filter (fun e => decide (attr ∉ e.attributes))).length
  let posAll : ℕ := (examples.filter (fun e => decide (e.actual = Category.POS))).length
  let posContaining : ℕ :=
    (examples.filter (fun e =>
      decide (e.actual = Category.POS) && decide (attr ∈ e.attributes))).length
  let posLacking : ℕ :=
    (examples.filter (fun e =>
      decide (e.actual = Category.POS) && decide (attr ∉ e.attributes))).length
  let baseEntropy := _entropy ((posAll : ℝ) / (total : ℝ))
  let pPresent : ℝ := (containing : ℝ) / (total : ℝ)
  let entropyGivenPresent : ℝ :=
    if containing = 0 then 0 else _entropy ((posContaining : ℝ) / (containing : ℝ))
  let pAbsent : ℝ := 1 - pPresent
  let entropyGivenAbsent : ℝ :=
    if lacking = 0 then 0 else _entropy ((posLacking : ℝ) / (lacking : ℝ))
  baseEntropy - (pPresent * entropyGivenPresent + pAbsent * entropyGivenAbsent)

/-- Mirrors `id3_util.find_best_attribute`:
`max(attributes, key=_information_gain_calculator(examples))`.  Python
`max` keeps the first element whose key is maximal, replacing the
current maximum only on a strictly greater key; on an empty sequence it
raises (call sites guarantee a non-empty sequence, modelled by `""`). -/
noncomputable def find_best_attribute (attributes : List String) (examples : List Example) : String :=
  match attributes with
  | [] => ""
  | a :: rest =>
      rest.foldl
        (fun best x =>
          if _compute_info_gain best examples < _compute_info_gain x examples then x else best)
        a

/-- Mirrors the `most_common_category` computation inside
`ID3.id3_recursive`: a counting dict keyed by `Category.values()` (keys
in order POS, NEG) is filled with the per-category counts of `actual`,
and `max(categories.keys(), key=categories.get)` returns the first key
with the maximal count — so NEG wins only when its count is strictly
greater than the POS count. -/
def most_common_category (examples : List Example) : Category :=
  let posCount : ℕ := (examples.filter (fun e => decide (e.actual = Category.POS))).length
  let negCount : ℕ := (examples.filter (fun e => decide (e.actual = Category.NEG))).length
  if posCount < negCount then Category.NEG else Category.POS

/-- Mirrors `id3.Node`: a single class holding a `category`, the tested
`attribute` and a `children` dict from bool to an optional `Node`
(`dict.fromkeys({True, False})` fills both slots with `None`).  `none`
models a `None` child. -/
inductive Node where
  | mk (category : Category) (attr : String) (childT childF : Option Node)

/-- The `category` field of a `Node`. -/
def Node.category : Node → Category
  | Node.mk c _ _ _ => c

/-- Mirrors `Node.leaf(category)`: a node with the given category, an
empty attribute and both children `None`. -/
def Node.leaf (category : Category) : Node :=
  Node.mk category "" none none

/-- Well-formedness of a tree, as a boolean: a node with no children is
a leaf and must carry a non-NONE category; a node with two present
children is internal and must carry the NONE category and have
well-formed children; a node with exactly one present child is
malformed. -/
def Node.wfb : Node → Bool
  | Node.mk c _ none none => decide (c ≠ Category.NONE)
  | Node.mk c _ (some t) (some f) => decide (c = Category.NONE) && t.wfb && f.wfb
  | Node.mk _ _ _ _ => false

/-- Mirrors the traversal loop of `ID3.classify`:
`while curr.category == Category.NONE: curr = curr.children[curr.attribute
in example.attributes]`.  Reaching a `None` child makes the next loop
iteration fail with an attribute error; this is modelled by `none`. -/
def Node.traverse : Node → List String → Option Category
  | Node.mk c a ct cf, attrs =>
    if c = Category.NONE then
      if a ∈ attrs then
        match ct with
        | none => none
        | some child => child.traverse attrs
      else
        match cf with
        | none => none
        | some child => child.traverse attrs
    else some c

/-- Mirrors `ID3.cutoff = 0.95`. -/
def ID3.cutoff : ℚ := 95 / 100

/-- The purity test of `ID3.id3_recursive`:
`all(example.actual == category for example in examples)`. -/
def all_actual (category : Category) (examples : List Example) : Prop :=
  ∀ e ∈ examples, e.actual = category

instance (category : Category) (examples : List Example) : Decidable (all_actual category examples) :=
  inferInstanceAs (Decidable (∀ e ∈ examples, e.actual = category))

/-- The early-stop test of `ID3.id3_recursive`:
`len(example_subset) / len(examples) > cls.cutoff` with `k` the subset
size and `n` the total size. -/
def ratio_gt_cutoff (k n : ℕ) : Prop :=
  ID3.cutoff < (k : ℚ) / (n : ℚ)

instance (k n : ℕ) : Decidable (ratio_gt_cutoff k n) :=
  inferInstanceAs (Decidable (_ < _))

/-- The predicate `best_attr in training_example.attributes` (value True). -/
def contains_attr (s : String) (e : Example) : Bool :=
  decide (s ∈ e.attributes)

/-- The predicate `(best_attr in training_example.attributes) == False`. -/
def lacks_attr (s : String) (e : Example) : Bool :=
  decide (s ∉ e.attributes)

/-- The attribute filter `[a for a in attributes if a != best_attr]`. -/
def ne_attr (best : String) (x : String) : Bool :=
  decide (x ≠ best)

/-- Mirrors `ID3.id3_recursive(examples, attributes)` exactly.  Notes on
the translation:
the purity loop `for category in Category.values()` tests POS first and
then NEG (with an empty example list the vacuous `all(...)` makes it
return a POS leaf); `most_common_category` is computed next; with an
empty attribute list a leaf with the most common category is returned;
otherwise the loop `for value in {True, False}` runs value False first
and then value True (CPython iterates the set `{True, False}` in that
order), building `root.children`; an empty subset installs a leaf with
the most common category for that child; a subset with more than
`cutoff` of the examples makes the whole call return a leaf with the
most common category (the global early exit); otherwise the call
recurses on the subset with `best` removed from the attributes. -/
noncomputable def id3_recursive (examples : List Example) (attributes : List String) : Node :=
  if all_actual Category.POS examples then Node.leaf Category.POS
  else if all_actual Category.NEG examples then Node.leaf Category.NEG
  else
    let mcc := most_common_category examples
    match attributes with
    | [] => Node.leaf mcc
    | a :: rest =>
      let best := find_best_attribute (a :: rest) examples
      let attribute_subset := (a :: rest).filter (ne_attr best)
      let subsetF := examples.filter (lacks_attr best)
      let subsetT := examples.filter (contains_attr best)
      if subsetF.length = 0 then
        -- value False: children[False] := leaf mcc, continue with value True
        if subsetT.length = 0 then
          Node.mk Category.NONE best (some (Node.leaf mcc)) (some (Node.leaf mcc))
        else if ratio_gt_cutoff subsetT.length examples.length then
          Node.leaf mcc
        else
          Node.mk Category.NONE best (some (id3_recursive subsetT attribute_subset))
            (some (Node.leaf mcc))
      else if ratio_gt_cutoff subsetF.length examples.length then
        Node.leaf mcc
      else
        -- value False recursed; continue with value True
        let childF := id3_recursive subsetF attribute_subset
        if subsetT.length = 0 then
          Node.mk Category.NONE best (some (Node.leaf mcc)) (some childF)
        else if ratio_gt_cutoff subsetT.length examples.length then
          Node.leaf mcc
        else
          Node.mk Category.NONE best (some (id3_recursive subsetT attribute_subset))
            (some childF)
termination_by attributes.length
decreasing_by
  all_goals
  · simp only [List.length_cons]
    have hfold : ∀ (l : List String) (i : String),
        List.foldl
          (fun best x =>
            if _compute_info_gain best examples < _compute_info_gain x examples then x
            else best) i l = i ∨
        List.foldl
          (fun best x =>
            if _compute_info_gain best examples < _compute_info_gain x examples then x
            else best) i l ∈ l := by
      intro l
      induction l with
      | nil => exact fun i => Or.inl rfl
      | cons x xs ih =>
          intro i
          rw [List.foldl_cons]
          rcases ih (if _compute_info_gain i examples < _compute_info_gain x examples then x
            else i) with h | h
          · rw [h]
            by_cases hc : _compute_info_gain i examples < _compute_info_gain x examples
            · rw [if_pos hc]; exact Or.inr (List.mem_cons_self x xs)
            · rw [if_neg hc]; exact Or.inl rfl
          · exact Or.inr (List.mem_cons_of_mem x h)
    have hmem : find_best_attribute (a :: rest) examples ∈ a :: rest := by
      rw [find_best_attribute]
      rcases hfold rest a with h | h
      · rw [h]; exact List.mem_cons_self a rest
      · exact List.mem_cons_of_mem a h
    have hlt : ∀ (l : List String) (b : String), b ∈ l →
        (l.filter (ne_attr b)).length < l.length := by
      intro l
      induction l with
      | nil => intro b hb; exact absurd hb (List.not_mem_nil b)
      | cons c t ih =>
          intro b hb
          by_cases hcb : c = b
          · subst hcb
            rw [List.filter_cons, if_neg (by simp [ne_attr])]
            exact Nat.lt_succ_of_le (List.length_filter_le _ t)
          · rcases List.mem_cons.mp hb with h | h
            · exact absurd h.symm hcb
            · rw [List.filter_cons]
              by_cases hkeep : ne_attr b c = true
              · rw [if_pos hkeep]
                simpa using Nat.succ_lt_succ (ih b h)
              · rw [if_neg hkeep]
                exact Nat.lt_succ_of_lt (ih b h)
    simpa using hlt (a :: rest) (find_best_attribute (a :: rest) examples) hmem

/-- Mirrors `ID3.classify(example)`: traverse the tree from the root,
set `example.predicted` to the category of the leaf reached, and return
that category.  `none` models the crash on a malformed tree. -/
def ID3.classify (root : Node) (ex : Example) : Option (Category × Example) :=
  match root.traverse ex.attributes with
  | none => none
  | some c => some (c, { ex with predicted := c })

/-- Mirrors `RandomForest.tree_count = 150`. -/
def RandomForest.tree_count : ℕ := 150

/-- Mirrors `RandomForest.examples_per_tree = 1 - 1 / exp(1)`. -/
noncomputable def RandomForest.examples_per_tree : ℝ := 1 - 1 / Real.exp 1

/-- Mirrors `example_count = floor(len(examples) * RandomForest.examples_per_tree)`
in `RandomForest.__init__`. -/
noncomputable def rf_example_count (n : ℕ) : ℕ :=
  Nat.floor ((n : ℝ) * RandomForest.examples_per_tree)

/-- Mirrors `attribute_count = min(len(attributes), floor(sqrt(len(examples))))`
in `RandomForest.__init__`. -/
noncomputable def rf_attribute_count (numAttributes n : ℕ) : ℕ :=
  min numAttributes (Nat.floor (Real.sqrt (n : ℝ)))

/-- Mirrors `example_subset = random.choices(examples, k=example_count)`
in the per-tree loop of `RandomForest.__init__`: `example_count` draws
with replacement from the full training list.  The random source is
modelled by the oracle `draw`, giving the index drawn for tree `t` at
position `i`.  `random.choices` returns the drawn list elements
themselves: the training list of tree `t` holds the original examples,
no copy is taken. -/
noncomputable def rf_tree_examples (examples : List Example) (draw : ℕ → ℕ → ℕ) (t : ℕ) :
    List Example :=
  (List.range (rf_example_count examples.length)).map (fun i => examples.getD (draw t i) default)

/-- One step of the voting loop of `RandomForest.classify`:
`category_count[tree.classify(example)] += 1`.  The state carries the
example (whose `predicted` field `ID3.classify` overwrites with the
verdict of every tree), the chronological list of values assigned to
`predicted`, and the counting dict keyed by `Category.values()` (POS
count, NEG count).  A crash — a malformed tree, or a NONE verdict which
is not a key of the counting dict — is modelled by `none`. -/
def rf_vote (acc : Option (Example × List Category × ℕ × ℕ)) (tree : Node) :
    Option (Example × List Category × ℕ × ℕ) :=
  match acc with
  | none => none
  | some (e, log, p, n) =>
    match tree.traverse e.attributes with
    | none => none
    | some c =>
      match c with
      | Category.POS => some ({ e with predicted := c }, log ++ [c], p + 1, n)
      | Category.NEG => some ({ e with predicted := c }, log ++ [c], p, n + 1)
      | Category.NONE => none

/-- Mirrors `RandomForest.classify(example)`: every tree votes (each
vote setting `example.predicted` as a side effect of `ID3.classify`),
then `max(category_count.keys(), key=category_count.get)` picks the
first key (order POS, NEG) with the maximal count, and finally
`example.predicted` is assigned the winner.  Returns the winner, the
final example and the chronological list of the values assigned to
`predicted`. -/
def RandomForest.classify (trees : List Node) (ex : Example) :
    Option (Category × Example × List Category) :=
  match trees.foldl rf_vote (some (ex, [], 0, 0)) with
  | none => none
  | some (e, log, p, n) =>
    let predicted_category := if p < n then Category.NEG else Category.POS
    some (predicted_category, { e with predicted := predicted_category },
      log ++ [predicted_category])

/-- Python true division on the rationals: raises `ZeroDivisionError`
(modelled by `none`) when the divisor is 0. -/
def qdiv (a b : ℚ) : Option ℚ :=
  if b = 0 then none else some (a / b)

/-- Mirrors the `_data` table built by `ClassifierEvaluation.__init__`:
`_data[category][b]` counts the examples with `predicted == category`
whose `(actual == category)` equals `b`.  The Python dict has entries
only for `Category.values()`; this function is only used at POS and
NEG. -/
def cdata (examples : List Example) (category : Category) (b : Bool) : ℕ :=
  (examples.filter (fun e =>
    decide (e.predicted = category) && (decide (e.actual = category) == b))).length

/-- Mirrors `ClassifierEvaluation._example_count = len(classified_examples)`. -/
def example_count (examples : List Example) : ℕ := examples.length

/-- Mirrors `ClassifierEvaluation.accuracy`: 0 when the example count is
0, otherwise the sum of the `True` cells over all categories divided by
the example count. -/
def accuracy (examples : List Example) : Option ℚ :=
  if example_count examples = 0 then some 0
  else
    qdiv ((Category.values.map (fun c => (cdata examples c true : ℚ))).sum)
      ((example_count examples : ℚ))

/-- Mirrors `ClassifierEvaluation.precision`: returns 1 when
`_data[category][True] + _data[category][False]` is 0. -/
def precision (examples : List Example) (category : Category) : Option ℚ :=
  let predicted_of_category := cdata examples category true
  let total_classified_of_category := cdata examples category true + cdata examples category false
  if total_classified_of_category = 0 then some 1
  else qdiv (predicted_of_category : ℚ) (total_classified_of_category : ℚ)

/-- Mirrors `ClassifierEvaluation.recall`: returns 0 when
`_data[category][True] + sum of _data[c][False] over the other
categories` is 0. -/
def «recall» (examples : List Example) (category : Category) : Option ℚ :=
  let predicted_of_category := cdata examples category true
  let true_members_of_category := cdata examples category true +
    ((Category.values.filter (fun c => decide (c ≠ category))).map
      (fun c => cdata examples c false)).sum
  if true_members_of_category = 0 then some 0
  else qdiv (predicted_of_category : ℚ) (true_members_of_category : ℚ)

/-- Mirrors `ClassifierEvaluation.f_measure`: 0 when precision and
recall are both 0, 0 when `b` is 0 and recall is 0, otherwise the
weighted harmonic mean formula. -/
def f_measure (examples : List Example) (category : Category) (b : ℚ) : Option ℚ :=
  match precision examples category, «recall» examples category with
  | some p, some r =>
    if p = 0 ∧ r = 0 then some 0
    else if b = 0 ∧ r = 0 then some 0
    else qdiv ((b * b + 1) * p * r) (b * b * p + r)
  | _, _ => none

/-- Mirrors `ClassifierEvaluation.macro_precision`: the sum of the
per-category precisions divided by `len(self._data)` (= 2 keys). -/
def macro_precision (examples : List Example) : Option ℚ := do
  let ps ← Category.values.mapM (precision examples)
  qdiv ps.sum ((Category.values.length : ℚ))

/-- Mirrors `ClassifierEvaluation.macro_recall`. -/
def macro_recall (examples : List Example) : Option ℚ := do
  let rs ← Category.values.mapM («recall» examples)
  qdiv rs.sum ((Category.values.length : ℚ))

/-- Mirrors `ClassifierEvaluation.micro_precision`: an unguarded
division of the pooled `True` cells by the pooled `True`+`False`
cells. -/
def micro_precision (examples : List Example) : Option ℚ :=
  qdiv ((Category.values.map (fun c => (cdata examples c true : ℚ))).sum)
    ((Category.values.map (fun c => (cdata examples c true + cdata examples c false : ℚ))).sum)

/-- Mirrors `ClassifierEvaluation.micro_recall`: an unguarded division. -/
def micro_recall (examples : List Example) : Option ℚ :=
  qdiv ((Category.values.map (fun c => (cdata examples c true : ℚ))).sum)
    ((Category.values.map (fun c =>
      (cdata examples c true : ℚ) +
        ((Category.values.filter (fun c1 => decide (c1 ≠ c))).map
          (fun c1 => (cdata examples c1 false : ℚ))).sum)).sum)

/-- A concrete unclassified POSITIVE example containing the token "a". -/
def exPa : Example := ⟨Category.POS, Category.NONE, ["a"]⟩

/-- A concrete unclassified NEGATIVE example containing the token "a". -/
def exNa : Example := ⟨Category.NEG, Category.NONE, ["a"]⟩

/-- A concrete unclassified POSITIVE example with no attributes. -/
def exPn : Example := ⟨Category.POS, Category.NONE, []⟩

/-- A concrete unclassified NEGATIVE example with no attributes. -/
def exNn : Example := ⟨Category.NEG, Category.NONE, []⟩

/-- A concrete POSITIVE example that has already been classified
(`predicted` = POS) and contains the token "a". -/
def exPaClassified : Example := ⟨Category.POS, Category.POS, ["a"]⟩

theorem entropy_zero : _entropy 0 = 0 := by
  simp [_entropy]

theorem entropy_one : _entropy 1 = 0 := by
  simp [_entropy]

theorem entropy_half : _entropy (1 / 2) = 1 := by
  rw [_entropy, if_neg (by norm_num)]
  have h : (1 : ℝ) - 1 / 2 = 1 / 2 := by norm_num
  rw [h, show (1 / 2 : ℝ) = 2⁻¹ by norm_num, Real.logb_inv,
    Real.logb_self_eq_one (by norm_num)]
  ring

theorem find_best_attribute_mem (a : String) (rest : List String) (examples : List Example) :
    find_best_attribute (a :: rest) examples ∈ a :: rest := by
  have hfold : ∀ (l : List String) (i : String),
      List.foldl
        (fun best x =>
          if _compute_info_gain best examples < _compute_info_gain x examples then x
          else best) i l = i ∨
      List.foldl
        (fun best x =>
          if _compute_info_gain best examples < _compute_info_gain x examples then x
          else best) i l ∈ l := by
    intro l
    induction l with
    | nil => exact fun i => Or.inl rfl
    | cons x xs ih =>
        intro i
        rw [List.foldl_cons]
        rcases ih (if _compute_info_gain i examples < _compute_info_gain x examples then x
          else i) with h | h
        · rw [h]
          by_cases hc : _compute_info_gain i examples < _compute_info_gain x examples
          · rw [if_pos hc]; exact Or.inr (List.mem_cons_self x xs)
          · rw [if_neg hc]; exact Or.inl rfl
        · exact Or.inr (List.mem_cons_of_mem x h)
  rw [find_best_attribute]
  rcases hfold rest a with h | h
  · rw [h]; exact List.mem_cons_self a rest
  · exact List.mem_cons_of_mem a h

theorem length_filter_ne_lt (l : List String) (b : String) (hb : b ∈ l) :
    (l.filter (ne_attr b)).length < l.length := by
  induction l with
  | nil => exact absurd hb (List.not_mem_nil b)
  | cons c t ih =>
      by_cases hcb : c = b
      · subst hcb
        rw [List.filter_cons, if_neg (by simp [ne_attr])]
        exact Nat.lt_succ_of_le (List.length_filter_le _ t)
      · rcases List.mem_cons.mp hb with h | h
        · exact absurd h.symm hcb
        · rw [List.filter_cons]
          by_cases hkeep : ne_attr b c = true
          · rw [if_pos hkeep]
            simpa using Nat.succ_lt_succ (ih h)
          · rw [if_neg hkeep]
            exact Nat.lt_succ_of_lt (ih h)

theorem filter_attr_partition (s : String) (l : List Example) :
    (l.filter (lacks_attr s)).length + (l.filter (contains_attr s)).length = l.length := by
  induction l with
  | nil => rfl
  | cons e t ih =>
      by_cases h : s ∈ e.attributes
      · rw [List.filter_cons, List.filter_cons]
        rw [if_neg (by simp [lacks_attr, h]), if_pos (by simp [contains_attr, h])]
        simp only [List.length_cons]
        omega
      · rw [List.filter_cons, List.filter_cons]
        rw [if_pos (by simp [lacks_attr, h]), if_neg (by simp [contains_attr, h])]
        simp only [List.length_cons]
        omega

theorem mcc_ne_none (examples : List Example) :
    most_common_category examples ≠ Category.NONE := by
  rw [most_common_category]
  split <;> simp

theorem mcc_all_pos (examples : List Example) (h : all_actual Category.POS examples) :
    most_common_category examples = Category.POS := by
  have hneg : (examples.filter (fun e => decide (e.actual = Category.NEG))).length = 0 := by
    rw [List.length_eq_zero, List.filter_eq_nil_iff]
    intro e he
    simp [h e he]
  rw [most_common_category]
  rw [hneg]
  simp

theorem mcc_all_neg (examples : List Example) (h1 : ¬ all_actual Category.POS examples)
    (h2 : all_actual Category.NEG examples) :
    most_common_category examples = Category.NEG := by
  have hpos : (examples.filter (fun e => decide (e.actual = Category.POS))).length = 0 := by
    rw [List.length_eq_zero, List.filter_eq_nil_iff]
    intro e he
    simp [h2 e he]
  obtain ⟨e, he, hne⟩ : ∃ e ∈ examples, ¬ e.actual = Category.POS := by
    by_contra hc
    push_neg at hc
    exact h1 hc
  have hmem : e ∈ examples.filter (fun e => decide (e.actual = Category.NEG)) := by
    rw [List.mem_filter]
    exact ⟨he, by simp [h2 e he]⟩
  have hpos2 : 0 < (examples.filter (fun e => decide (e.actual = Category.NEG))).length :=
    List.length_pos.mpr (List.ne_nil_of_mem hmem)
  rw [most_common_category]
  rw [hpos, if_pos hpos2]

theorem not_pure_ne_nil (examples : List Example)
    (h1 : ¬ all_actual Category.POS examples) : examples ≠ [] := by
  intro h
  subst h
  exact h1 (fun e he => absurd he (List.not_mem_nil e))

theorem wfb_traverse (node : Node) (h : node.wfb = true) (attrs : List String) :
    ∃ c, node.traverse attrs = some c ∧ (c = Category.POS ∨ c = Category.NEG) := by
  match node with
  | Node.mk c a none none =>
      rw [Node.wfb] at h
      have hc : c ≠ Category.NONE := by simpa using h
      rw [Node.traverse, if_neg hc]
      refine ⟨c, rfl, ?_⟩
      cases c with
      | NONE => exact absurd rfl hc
      | POS => exact Or.inl rfl
      | NEG => exact Or.inr rfl
  | Node.mk c a (some t) (some f) =>
      rw [Node.wfb] at h
      simp only [Bool.and_eq_true, decide_eq_true_eq] at h
      obtain ⟨⟨hc, ht⟩, hf⟩ := h
      rw [Node.traverse, if_pos hc]
      by_cases hm : a ∈ attrs
      · rw [if_pos hm]
        exact wfb_traverse t ht attrs
      · rw [if_neg hm]
        exact wfb_traverse f hf attrs
  | Node.mk c a none (some f) =>
      simp [Node.wfb] at h
  | Node.mk c a (some t) none =>
      simp [Node.wfb] at h

set_option maxHeartbeats 1600000 in
theorem id3_recursive_pure_pos (examples : List Example) (attributes : List String)
    (h : all_actual Category.POS examples) :
    id3_recursive examples attributes = Node.leaf Category.POS := by
  rw [id3_recursive.eq_def, if_pos h]

set_option maxHeartbeats 1600000 in
theorem id3_recursive_pure_neg (examples : List Example) (attributes : List String)
    (h1 : ¬ all_actual Category.POS examples) (h2 : all_actual Category.NEG examples) :
    id3_recursive examples attributes = Node.leaf Category.NEG := by
  rw [id3_recursive.eq_def, if_neg h1, if_pos h2]

set_option maxHeartbeats 1600000 in
theorem id3_recursive_no_attributes (examples : List Example)
    (h1 : ¬ all_actual Category.POS examples) (h2 : ¬ all_actual Category.NEG examples) :
    id3_recursive examples [] = Node.leaf (most_common_category examples) := by
  rw [id3_recursive.eq_def, if_neg h1, if_neg h2]

set_option maxHeartbeats 1600000 in
theorem id3_recursive_split (examples : List Example) (a : String) (rest : List String)
    (h1 : ¬ all_actual Category.POS examples) (h2 : ¬ all_actual Category.NEG examples) :
    id3_recursive examples (a :: rest) =
      (let mcc := most_common_category examples
       let best := find_best_attribute (a :: rest) examples
       let attribute_subset := (a :: rest).filter (ne_attr best)
       let subsetF := examples.filter (lacks_attr best)
       let subsetT := examples.filter (contains_attr best)
       if subsetF.length = 0 then
         if subsetT.length = 0 then
           Node.mk Category.NONE best (some (Node.leaf mcc)) (some (Node.leaf mcc))
         else if ratio_gt_cutoff subsetT.length examples.length then
           Node.leaf mcc
         else
           Node.mk Category.NONE best (some (id3_recursive subsetT attribute_subset))
             (some (Node.leaf mcc))
       else if ratio_gt_cutoff subsetF.length examples.length then
         Node.leaf mcc
       else
         let childF := id3_recursive subsetF attribute_subset
         if subsetT.length = 0 then
           Node.mk Category.NONE best (some (Node.leaf mcc)) (some childF)
         else if ratio_gt_cutoff subsetT.length examples.length then
           Node.leaf mcc
         else
           Node.mk Category.NONE best (some (id3_recursive subsetT attribute_subset))
             (some childF)) := by
  rw [id3_recursive.eq_def, if_neg h1, if_neg h2]

theorem leaf_wfb (examples : List Example) :
    (Node.leaf (most_common_category examples)).wfb = true := by
  simp only [Node.leaf, Node.wfb]
  simpa using mcc_ne_none examples

set_option maxHeartbeats 1600000 in
theorem id3_wfb_aux (n : ℕ) (attributes : List String) (examples : List Example)
    (hn : attributes.length ≤ n) : (id3_recursive examples attributes).wfb = true := by
  induction n generalizing attributes examples with
  | zero =>
      have hnil : attributes = [] := List.length_eq_zero.mp (Nat.le_zero.mp hn)
      subst hnil
      by_cases hp : all_actual Category.POS examples
      · rw [id3_recursive_pure_pos examples [] hp]; simp [Node.leaf, Node.wfb]
      by_cases hg : all_actual Category.NEG examples
      · rw [id3_recursive_pure_neg examples [] hp hg]; simp [Node.leaf, Node.wfb]
      · rw [id3_recursive_no_attributes examples hp hg]
        exact leaf_wfb examples
  | succ k ih =>
      by_cases hp : all_actual Category.POS examples
      · rw [id3_recursive_pure_pos examples attributes hp]; simp [Node.leaf, Node.wfb]
      by_cases hg : all_actual Category.NEG examples
      · rw [id3_recursive_pure_neg examples attributes hp hg]; simp [Node.leaf, Node.wfb]
      cases attributes with
      | nil =>
          rw [id3_recursive_no_attributes examples hp hg]
          exact leaf_wfb examples
      | cons a rest =>
          rw [id3_recursive_split examples a rest hp hg]
          have hbest := find_best_attribute_mem a rest examples
          have hlen :
              ((a :: rest).filter (ne_attr (find_best_attribute (a :: rest) examples))).length
                ≤ k := by
            have hlt := length_filter_ne_lt (a :: rest) _ hbest
            simp only [List.length_cons] at hlt hn ⊢
            omega
          have hleaf := leaf_wfb examples
          dsimp only
          split_ifs with h1 h2 h3 h4 h5 h6
          · simp [Node.wfb, hleaf, mcc_ne_none examples]
          · exact hleaf
          · simp [Node.wfb, hleaf, mcc_ne_none examples, ih _ _ hlen]
          · exact hleaf
          · simp [Node.wfb, hleaf, mcc_ne_none examples, ih _ _ hlen]
          · exact hleaf
          · simp [Node.wfb, mcc_ne_none examples, ih _ _ hlen]

theorem ratio_gt_cutoff_self (n : ℕ) (h : n ≠ 0) : ratio_gt_cutoff n n := by
  rw [ratio_gt_cutoff, div_self (by exact_mod_cast h : (n : ℚ) ≠ 0)]
  norm_num [ID3.cutoff]

theorem not_ratio_gt_cutoff_zero (n : ℕ) : ¬ ratio_gt_cutoff 0 n := by
  rw [ratio_gt_cutoff]
  norm_num [ID3.cutoff]

/-- C3: in `id3_recursive`, whenever one boolean branch's example subset
has more than the `cutoff` (= 0.95) fraction of the current examples,
the entire current call returns a leaf carrying the most common
category — a global early exit abandoning the remaining recursion,
including the other branch — rather than a per-branch decision. -/
theorem c3_early_stop_global_exit (examples : List Example) (attributes : List String)
    (h0 : ∀ e ∈ examples, e.actual ≠ Category.NONE)
    (hc : ratio_gt_cutoff
            (examples.filter (contains_attr (find_best_attribute attributes examples))).length
            examples.length ∨
          ratio_gt_cutoff
            (examples.filter (lacks_attr (find_best_attribute attributes examples))).length
            examples.length) :
    id3_recursive examples attributes = Node.leaf (most_common_category examples) := by
  by_cases hp : all_actual Category.POS examples
  · rw [id3_recursive_pure_pos examples attributes hp, mcc_all_pos examples hp]
  by_cases hg : all_actual Category.NEG examples
  · rw [id3_recursive_pure_neg examples attributes hp hg, mcc_all_neg examples hp hg]
  have hne : examples ≠ [] := not_pure_ne_nil examples hp
  have hlen0 : examples.length ≠ 0 := fun h => hne (List.length_eq_zero.mp h)
  cases attributes with
  | nil => exact id3_recursive_no_attributes examples hp hg
  | cons a rest =>
      rw [id3_recursive_split examples a rest hp hg]
      have hpart := filter_attr_partition (find_best_attribute (a :: rest) examples) examples
      dsimp only
      split_ifs with h1 h2 h3 h4 h5 h6
      · omega
      · rfl
      · exact absurd (by
          have hT : (examples.filter
              (contains_attr (find_best_attribute (a :: rest) examples))).length =
              examples.length := by omega
          rw [hT]
          exact ratio_gt_cutoff_self examples.length hlen0) h3
      · rfl
      · exact absurd (by
          have hF : (examples.filter
              (lacks_attr (find_best_attribute (a :: rest) examples))).length =
              examples.length := by omega
          rw [hF]
          exact ratio_gt_cutoff_self examples.length hlen0) h4
      · rfl
      · exact hc.elim (fun h => absurd h h6) (fun h => absurd h h4)

theorem c3_early_stop_global_exit_witness :
    (∀ e ∈ [exPa, exNa], e.actual ≠ Category.NONE) ∧
    (ratio_gt_cutoff
        (([exPa, exNa].filter (contains_attr (find_best_attribute ["a"] [exPa, exNa]))).length)
        ([exPa, exNa] : List Example).length ∨
      ratio_gt_cutoff
        (([exPa, exNa].filter (lacks_attr (find_best_attribute ["a"] [exPa, exNa]))).length)
        ([exPa, exNa] : List Example).length) ∧
    id3_recursive [exPa, exNa] ["a"] = Node.leaf (most_common_category [exPa, exNa]) := by
  have hbest : find_best_attribute ["a"] [exPa, exNa] = "a" := rfl
  have h0 : ∀ e ∈ [exPa, exNa], e.actual ≠ Category.NONE := by decide
  have hc : ratio_gt_cutoff
      (([exPa, exNa].filter (contains_attr (find_best_attribute ["a"] [exPa, exNa]))).length)
      ([exPa, exNa] : List Example).length ∨
    ratio_gt_cutoff
      (([exPa, exNa].filter (lacks_attr (find_best_attribute ["a"] [exPa, exNa]))).length)
      ([exPa, exNa] : List Example).length := by
    left
    rw [hbest]
    have hT : ([exPa, exNa].filter (contains_attr "a")).length = 2 := rfl
    rw [hT]
    exact ratio_gt_cutoff_self 2 (by norm_num)
  exact ⟨h0, hc, c3_early_stop_global_exit [exPa, exNa] ["a"] h0 hc⟩

/-- C4 counterexample: `id3_recursive` takes no fallback parameter, so a
call on an empty example collection cannot return a parent-supplied
fallback category: it always returns a POSITIVE leaf (the vacuous purity
check fires for POS, the first enum value).  Moreover a call in which
one branch's partition is empty never recurses on the empty partition:
here all three examples (majority NEGATIVE) contain the attribute "a",
the False-branch partition is empty, and the whole call collapses to a
single NEGATIVE leaf instead of producing an internal node with a leaf
child for the empty branch. -/
theorem c4_empty_examples_counterexample :
    id3_recursive [] ["a"] = Node.leaf Category.POS ∧
    id3_recursive [exNa, exNa, exPa] ["a"] = Node.leaf Category.NEG := by
  constructor
  · exact id3_recursive_pure_pos [] ["a"] (fun e he => absurd he (List.not_mem_nil e))
  · rw [id3_recursive_split [exNa, exNa, exPa] "a" [] (by decide) (by decide)]
    have hbest : find_best_attribute ["a"] [exNa, exNa, exPa] = "a" := rfl
    dsimp only
    rw [hbest]
    have hF : (([exNa, exNa, exPa] : List Example).filter (lacks_attr "a")).length = 0 := rfl
    have hT : (([exNa, exNa, exPa] : List Example).filter (contains_attr "a")).length = 3 := rfl
    have hL : ([exNa, exNa, exPa] : List Example).length = 3 := rfl
    rw [hF, hT, hL]
    rw [if_pos rfl, if_neg (by norm_num),
      if_pos (ratio_gt_cutoff_self 3 (by norm_num))]
    have hmcc : most_common_category [exNa, exNa, exPa] = Category.NEG := rfl
    rw [hmcc]

/-- C4 (amended): the builder takes no fallback parameter and never
invokes itself on an empty example collection.  A direct call on an
empty collection returns a POSITIVE leaf regardless of any parent
context.  When one boolean branch's partition is empty, the whole
current call returns a leaf with the current call's most common
category — which is the category the specification's fallback leaf
would have carried, but it is produced by the early
exit of the enclosing call, not by a recursive call on the empty
partition. -/
theorem c4_empty_partition_amended :
    (∀ attributes : List String, id3_recursive [] attributes = Node.leaf Category.POS) ∧
    (∀ (examples : List Example) (attributes : List String),
      (∀ e ∈ examples, e.actual ≠ Category.NONE) →
      (examples.filter (lacks_attr (find_best_attribute attributes examples)) = [] ∨
        examples.filter (contains_attr (find_best_attribute attributes examples)) = []) →
      id3_recursive examples attributes = Node.leaf (most_common_category examples)) := by
  constructor
  · intro attributes
    exact id3_recursive_pure_pos [] attributes (fun e he => absurd he (List.not_mem_nil e))
  · intro examples attributes h0 hempty
    by_cases hp : all_actual Category.POS examples
    · rw [id3_recursive_pure_pos examples attributes hp, mcc_all_pos examples hp]
    by_cases hg : all_actual Category.NEG examples
    · rw [id3_recursive_pure_neg examples attributes hp hg, mcc_all_neg examples hp hg]
    have hne : examples ≠ [] := not_pure_ne_nil examples hp
    have hlen0 : examples.length ≠ 0 := fun h => hne (List.length_eq_zero.mp h)
    cases attributes with
    | nil => exact id3_recursive_no_attributes examples hp hg
    | cons a rest =>
        rw [id3_recursive_split examples a rest hp hg]
        have hpart := filter_attr_partition (find_best_attribute (a :: rest) examples) examples
        have hempty2 :
            (examples.filter (lacks_attr (find_best_attribute (a :: rest) examples))).length
              = 0 ∨
            (examples.filter (contains_attr (find_best_attribute (a :: rest) examples))).length
              = 0 := by
          rcases hempty with h | h
          · exact Or.inl (by rw [h]; rfl)
          · exact Or.inr (by rw [h]; rfl)
        dsimp only
        split_ifs with h1 h2 h3 h4 h5 h6
        · omega
        · rfl
        · exact absurd (by
            have hT : (examples.filter
                (contains_attr (find_best_attribute (a :: rest) examples))).length =
                examples.length := by omega
            rw [hT]
            exact ratio_gt_cutoff_self examples.length hlen0) h3
        · rfl
        · exact absurd (by
            have hF : (examples.filter
                (lacks_attr (find_best_attribute (a :: rest) examples))).length =
                examples.length := by omega
            rw [hF]
            exact ratio_gt_cutoff_self examples.length hlen0) h4
        · rfl
        · omega

theorem c4_empty_partition_amended_witness :
    (id3_recursive [] ["a"] = Node.leaf Category.POS) ∧
    ((∀ e ∈ [exPa, exNa, exNa], e.actual ≠ Category.NONE) ∧
      ([exPa, exNa, exNa].filter
          (lacks_attr (find_best_attribute ["a"] [exPa, exNa, exNa])) = [] ∨
        [exPa, exNa, exNa].filter
          (contains_attr (find_best_attribute ["a"] [exPa, exNa, exNa])) = []) ∧
      id3_recursive [exPa, exNa, exNa] ["a"] =
        Node.leaf (most_common_category [exPa, exNa, exNa])) := by
  refine ⟨c4_empty_partition_amended.1 ["a"], by decide, Or.inl rfl, ?_⟩
  exact c4_empty_partition_amended.2 [exPa, exNa, exNa] ["a"] (by decide) (Or.inl rfl)

/-- C5: every tree produced by ID3 training is well-formed — every leaf
carries a non-NONE category, every internal node has exactly two present
children, and a node's category is NONE exactly when it is internal (the
`Node.wfb` predicate) — and consequently `ID3.classify` on such a tree
returns POSITIVE or NEGATIVE, never NONE, for every example (setting the
example's `predicted` field to the returned category). -/
theorem c5_id3_tree_wellformed (examples : List Example) (attributes : List String)
    (h0 : ∀ e ∈ examples, e.actual ≠ Category.NONE) :
    (id3_recursive examples attributes).wfb = true ∧
    ∀ ex : Example, ∃ c, ID3.classify (id3_recursive examples attributes) ex =
        some (c, { ex with predicted := c }) ∧ (c = Category.POS ∨ c = Category.NEG) := by
  have hw := id3_wfb_aux attributes.length attributes examples le_rfl
  refine ⟨hw, fun ex => ?_⟩
  obtain ⟨c, hc, hpn⟩ := wfb_traverse _ hw ex.attributes
  exact ⟨c, by rw [ID3.classify, hc], hpn⟩

theorem c5_id3_tree_wellformed_witness :
    (∀ e ∈ [exPa, exNn], e.actual ≠ Category.NONE) ∧
    ((id3_recursive [exPa, exNn] ["a"]).wfb = true ∧
      ∀ ex : Example, ∃ c, ID3.classify (id3_recursive [exPa, exNn] ["a"]) ex =
          some (c, { ex with predicted := c }) ∧ (c = Category.POS ∨ c = Category.NEG)) :=
  ⟨by decide, c5_id3_tree_wellformed [exPa, exNn] ["a"] (by decide)⟩

/-- C1: the claim describes the documented information-gain formula
(`info_gain_spec`), but `_compute_info_gain` sets `example_count` and
`attribute_count` to the length of the counting dicts (always 2, the
number of keys) instead of the number of examples and the number of
examples containing the attribute, and uses the NEG-containing count
where the fraction of POSITIVE among the lacking examples is required.
At the failing input — attribute "a", one POSITIVE example containing
"a" and one NEGATIVE example without it — the code returns 0 while the
documented formula gives 1. -/
theorem c1_info_gain_code_vs_spec :
    _compute_info_gain "a" [exPa, exNn] = 0 ∧ info_gain_spec "a" [exPa, exNn] = 1 := by
  constructor
  · rw [_compute_info_gain]
    have h1 : (([exPa, exNn] : List Example).filter
        (fun e => decide (e.actual = Category.POS))).length = 1 := rfl
    have h2 : (([exPa, exNn] : List Example).filter (fun e =>
        decide (e.actual = Category.POS) && decide ("a" ∈ e.attributes))).length = 1 := rfl
    have h3 : (([exPa, exNn] : List Example).filter (fun e =>
        decide (e.actual = Category.NEG) && decide ("a" ∈ e.attributes))).length = 0 := rfl
    rw [h1, h2, h3]
    have hv : (Category.values.length : ℕ) = 2 := rfl
    rw [hv]
    norm_num
  · rw [info_gain_spec]
    have h1 : (([exPa, exNn] : List Example).filter
        (fun e => decide ("a" ∈ e.attributes))).length = 1 := rfl
    have h2 : (([exPa, exNn] : List Example).filter
        (fun e => decide ("a" ∉ e.attributes))).length = 1 := rfl
    have h3 : (([exPa, exNn] : List Example).filter
        (fun e => decide (e.actual = Category.POS))).length = 1 := rfl
    have h4 : (([exPa, exNn] : List Example).filter (fun e =>
        decide (e.actual = Category.POS) && decide ("a" ∈ e.attributes))).length = 1 := rfl
    have h5 : (([exPa, exNn] : List Example).filter (fun e =>
        decide (e.actual = Category.POS) && decide ("a" ∉ e.attributes))).length = 0 := rfl
    have h6 : ([exPa, exNn] : List Example).length = 2 := rfl
    rw [h1, h2, h3, h4, h5, h6]
    norm_num
    rw [entropy_half, entropy_one, entropy_zero]
    norm_num

/-- C2: the claim states that `_compute_info_gain` is nonnegative on
every attribute and non-empty example list; because the code divides by
the counting-dict key count (2) instead of the example counts, on two
POSITIVE examples of which exactly one contains "a" it returns
`entropy(2/2) - entropy(1/2) = 0 - 1 = -1 < 0`. -/
theorem c2_info_gain_negative : _compute_info_gain "a" [exPa, exPn] < 0 := by
  rw [_compute_info_gain]
  have h1 : (([exPa, exPn] : List Example).filter
      (fun e => decide (e.actual = Category.POS))).length = 2 := rfl
  have h2 : (([exPa, exPn] : List Example).filter (fun e =>
      decide (e.actual = Category.POS) && decide ("a" ∈ e.attributes))).length = 1 := rfl
  have h3 : (([exPa, exPn] : List Example).filter (fun e =>
      decide (e.actual = Category.NEG) && decide ("a" ∈ e.attributes))).length = 0 := rfl
  rw [h1, h2, h3]
  have hv : (Category.values.length : ℕ) = 2 := rfl
  rw [hv]
  norm_num
  rw [entropy_half, entropy_one]
  norm_num

theorem rf_fold_spec (trees : List Node) :
    ∀ (e : Example) (log : List Category) (p n : ℕ),
    (∀ t ∈ trees, t.wfb = true) →
    ∃ verdicts : List Category,
      trees.map (fun t => t.traverse e.attributes) = verdicts.map some ∧
      ∃ e2 : Example,
        trees.foldl rf_vote (some (e, log, p, n)) =
          some (e2, log ++ verdicts, p + verdicts.count Category.POS,
            n + verdicts.count Category.NEG) ∧
        e2.actual = e.actual ∧ e2.attributes = e.attributes := by
  induction trees with
  | nil =>
      intro e log p n _
      exact ⟨[], rfl, e, by simp, rfl, rfl⟩
  | cons t ts ih =>
      intro e log p n h
      have hw : t.wfb = true := h t (List.mem_cons_self t ts)
      obtain ⟨c, hc, hpn⟩ := wfb_traverse t hw e.attributes
      have hrest : ∀ t2 ∈ ts, t2.wfb = true := fun t2 ht2 => h t2 (List.mem_cons_of_mem t ht2)
      cases hpn with
      | inl hP =>
          subst hP
          have hstep : rf_vote (some (e, log, p, n)) t =
              some ({ e with predicted := Category.POS }, log ++ [Category.POS], p + 1, n) := by
            rw [rf_vote, hc]
          obtain ⟨verdicts, hmap, e2, hfold, hact, hattr⟩ :=
            ih { e with predicted := Category.POS } (log ++ [Category.POS]) (p + 1) n hrest
          refine ⟨Category.POS :: verdicts, ?_, e2, ?_, by simpa using hact, by simpa using hattr⟩
          · rw [List.map_cons, hc, List.map_cons]
            exact congrArg _ hmap
          · rw [List.foldl_cons, hstep, hfold]
            simp [List.count_cons]
            omega
      | inr hN =>
          subst hN
          have hstep : rf_vote (some (e, log, p, n)) t =
              some ({ e with predicted := Category.NEG }, log ++ [Category.NEG], p, n + 1) := by
            rw [rf_vote, hc]
          obtain ⟨verdicts, hmap, e2, hfold, hact, hattr⟩ :=
            ih { e with predicted := Category.NEG } (log ++ [Category.NEG]) p (n + 1) hrest
          refine ⟨Category.NEG :: verdicts, ?_, e2, ?_, by simpa using hact, by simpa using hattr⟩
          · rw [List.map_cons, hc, List.map_cons]
            exact congrArg _ hmap
          · rw [List.foldl_cons, hstep, hfold]
            simp [List.count_cons]
            omega

/-- C6 counterexample: with three single-leaf trees voting POS, POS,
NEG, `RandomForest.classify` writes the example's `predicted` field four
times — once per tree during the voting phase (each write being that
tree's verdict) and a final time with the winner — not exactly once.
The third component of the result is the chronological list of values
assigned to `predicted`; its length is 4, not 1. -/
theorem c6_predicted_written_per_tree_counterexample :
    RandomForest.classify
        [Node.leaf Category.POS, Node.leaf Category.POS, Node.leaf Category.NEG] exPn =
      some (Category.POS, ⟨Category.POS, Category.POS, []⟩,
        [Category.POS, Category.POS, Category.NEG, Category.POS]) ∧
    ([Category.POS, Category.POS, Category.NEG, Category.POS] : List Category).length ≠ 1 :=
  ⟨rfl, by decide⟩

/-- C6 (amended): `RandomForest.classify` returns the category with the
most votes over all member trees, ties broken by the enum preference
order (POS before NEG), and finally sets the example's `predicted` field
to that winner; however during the voting phase every member tree's
classifier writes its own verdict to `predicted`, so the field is
written once per tree plus once for the final winner — the final value,
not the unique write, is the winning category. -/
theorem c6_forest_vote_amended (trees : List Node) (ex : Example)
    (h : ∀ t ∈ trees, t.wfb = true) :
    ∃ verdicts : List Category,
      trees.map (fun t => t.traverse ex.attributes) = verdicts.map some ∧
      verdicts.length = trees.length ∧
      RandomForest.classify trees ex =
        some
          (if verdicts.count Category.POS < verdicts.count Category.NEG
            then Category.NEG else Category.POS,
          { ex with predicted :=
              if verdicts.count Category.POS < verdicts.count Category.NEG
              then Category.NEG else Category.POS },
          verdicts ++
            [if verdicts.count Category.POS < verdicts.count Category.NEG
              then Category.NEG else Category.POS]) := by
  obtain ⟨verdicts, hmap, e2, hfold, hact, hattr⟩ := rf_fold_spec trees ex [] 0 0 h
  refine ⟨verdicts, hmap, ?_, ?_⟩
  · have hlen := congrArg List.length hmap
    simpa using hlen.symm
  · rw [RandomForest.classify, hfold]
    have he2 : ∀ w : Category, ({ e2 with predicted := w } : Example) =
        { ex with predicted := w } := by
      intro w
      cases e2
      cases ex
      simp only at hact hattr
      simp [hact, hattr]
    simp only [zero_add, List.nil_append]
    rw [he2]

theorem c6_forest_vote_amended_witness :
    (∀ t ∈ [Node.leaf Category.POS, Node.leaf Category.NEG], t.wfb = true) ∧
    ∃ verdicts : List Category,
      ([Node.leaf Category.POS, Node.leaf Category.NEG] : List Node).map
          (fun t => t.traverse exNa.attributes) = verdicts.map some ∧
      verdicts.length =
        ([Node.leaf Category.POS, Node.leaf Category.NEG] : List Node).length ∧
      RandomForest.classify [Node.leaf Category.POS, Node.leaf Category.NEG] exNa =
        some
          (if verdicts.count Category.POS < verdicts.count Category.NEG
            then Category.NEG else Category.POS,
          { exNa with predicted :=
              if verdicts.count Category.POS < verdicts.count Category.NEG
              then Category.NEG else Category.POS },
          verdicts ++
            [if verdicts.count Category.POS < verdicts.count Category.NEG
              then Category.NEG else Category.POS]) :=
  ⟨by decide,
    c6_forest_vote_amended [Node.leaf Category.POS, Node.leaf Category.NEG] exNa (by decide)⟩

theorem rf_example_count_two : rf_example_count 2 = 1 := by
  rw [rf_example_count, RandomForest.examples_per_tree]
  have he : (2 : ℝ) < Real.exp 1 := lt_trans (by norm_num) Real.exp_one_gt_d9
  have hepos : (0 : ℝ) < Real.exp 1 := Real.exp_pos 1
  have hinv : 1 / Real.exp 1 < 1 / 2 := one_div_lt_one_div_of_lt (by norm_num) he
  have hinvpos : 0 < 1 / Real.exp 1 := by positivity
  rw [Nat.floor_eq_iff (by nlinarith)]
  constructor
  · push_cast
    nlinarith
  · push_cast
    nlinarith

/-- C7 counterexample: with a training list whose first example has
already been classified (`predicted` = POS), the first tree's bootstrap
sample (oracle drawing index 0; sample size
`floor(2 * (1 - 1/e)) = 1`) is exactly the original example object with
its `predicted` field intact — not an independent copy with `predicted`
freshly NONE.  Moreover `Example.copy_of`, the only copying helper in
the code, is the identity: it copies `predicted` over instead of
resetting it. -/
theorem c7_no_fresh_copy_counterexample :
    rf_tree_examples [exPaClassified, exNn] (fun _ _ => 0) 0 = [exPaClassified] ∧
    exPaClassified.predicted = Category.POS ∧
    Example.copy_of exPaClassified = exPaClassified := by
  refine ⟨?_, rfl, rfl⟩
  rw [rf_tree_examples]
  have hlen : ([exPaClassified, exNn] : List Example).length = 2 := rfl
  rw [hlen, rf_example_count_two]
  rfl

/-- C7 (amended): each tree of the random forest is trained on
`floor(len(examples) * (1 - 1/exp(1)))` examples drawn with replacement
from the full training list, but the drawn examples are the original
`Example` objects themselves — no copy is made and `predicted` is not
reset — and `Example.copy_of` (unused by the forest constructor) is the
identity on the example value, preserving `predicted` rather than
resetting it to NONE. -/
theorem c7_bootstrap_amended (examples : List Example) (draw : ℕ → ℕ → ℕ) (t : ℕ)
    (hdraw : ∀ i, draw t i < examples.length) :
    (rf_tree_examples examples draw t).length =
      Nat.floor ((examples.length : ℝ) * (1 - 1 / Real.exp 1)) ∧
    (∀ ex ∈ rf_tree_examples examples draw t, ex ∈ examples) ∧
    (∀ ex : Example, Example.copy_of ex = ex) := by
  refine ⟨?_, ?_, fun ex => rfl⟩
  · rw [rf_tree_examples, List.length_map, List.length_range, rf_example_count,
      RandomForest.examples_per_tree]
  · intro ex hex
    rw [rf_tree_examples] at hex
    simp only [List.mem_map, List.mem_range] at hex
    obtain ⟨i, _, heq⟩ := hex
    rw [← heq, List.getD_eq_getElem examples default (hdraw i)]
    exact List.getElem_mem _

theorem c7_bootstrap_amended_witness :
    (∀ i : ℕ, (fun _ _ => 0 : ℕ → ℕ → ℕ) 0 i < ([exPa, exNn] : List Example).length) ∧
    ((rf_tree_examples [exPa, exNn] (fun _ _ => 0) 0).length =
        Nat.floor ((([exPa, exNn] : List Example).length : ℝ) * (1 - 1 / Real.exp 1)) ∧
      (∀ ex ∈ rf_tree_examples [exPa, exNn] (fun _ _ => 0) 0, ex ∈ [exPa, exNn]) ∧
      (∀ ex : Example, Example.copy_of ex = ex)) :=
  ⟨fun _ => by norm_num,
    c7_bootstrap_amended [exPa, exNn] (fun _ _ => 0) 0 (fun _ => by norm_num)⟩

theorem cdata_split (examples : List Example) (c : Category) :
    cdata examples c true + cdata examples c false =
      (examples.filter (fun e => decide (e.predicted = c))).length := by
  have htrue : cdata examples c true =
      ((examples.filter (fun e => decide (e.predicted = c))).filter
        (fun e => decide (e.actual = c))).length := by
    rw [cdata, List.filter_filter]
    refine congrArg List.length (List.filter_congr fun (e : Example) _ => ?_)
    cases h1 : decide (e.actual = c) <;> cases h2 : decide (e.predicted = c) <;> rfl
  have hfalse : cdata examples c false =
      ((examples.filter (fun e => decide (e.predicted = c))).filter
        (fun e => !decide (e.actual = c))).length := by
    rw [cdata, List.filter_filter]
    refine congrArg List.length (List.filter_congr fun (e : Example) _ => ?_)
    cases h1 : decide (e.actual = c) <;> cases h2 : decide (e.predicted = c) <;> rfl
  rw [htrue, hfalse]
  exact (@List.length_eq_length_filter_add Example
    (examples.filter (fun e => decide (e.predicted = c)))
    (fun e => decide (e.actual = c))).symm

theorem pred_filter_zero_iff (examples : List Example) :
    ((examples.filter (fun e => decide (e.predicted = Category.POS))).length = 0 ∧
      (examples.filter (fun e => decide (e.predicted = Category.NEG))).length = 0) ↔
    ∀ e ∈ examples, e.predicted = Category.NONE := by
  rw [List.length_eq_zero, List.filter_eq_nil_iff, List.length_eq_zero,
    List.filter_eq_nil_iff]
  constructor
  · rintro ⟨h1, h2⟩ e he
    have hp := h1 e he
    have hn := h2 e he
    simp only [decide_eq_true_eq] at hp hn
    cases hpred : e.predicted with
    | NONE => rfl
    | POS => exact absurd hpred hp
    | NEG => exact absurd hpred hn
  · intro h
    refine ⟨fun e he => ?_, fun e he => ?_⟩ <;> simp [h e he]

theorem precision_some_nonneg (examples : List Example) (c : Category) :
    ∃ q, precision examples c = some q ∧ 0 ≤ q := by
  rw [precision]
  by_cases h : cdata examples c true + cdata examples c false = 0
  · rw [if_pos h]
    exact ⟨1, rfl, by norm_num⟩
  · rw [if_neg h, qdiv, if_neg (by exact_mod_cast h)]
    exact ⟨_, rfl, by positivity⟩

theorem recall_some_nonneg (examples : List Example) (c : Category) :
    ∃ q, «recall» examples c = some q ∧ 0 ≤ q := by
  rw [«recall»]
  by_cases h : cdata examples c true +
      ((Category.values.filter (fun c1 => decide (c1 ≠ c))).map
        (fun c1 => cdata examples c1 false)).sum = 0
  · rw [if_pos h]
    exact ⟨0, rfl, by norm_num⟩
  · rw [if_neg h, qdiv, if_neg (by exact_mod_cast h)]
    exact ⟨_, rfl, by positivity⟩

theorem f_measure_some (examples : List Example) (c : Category) (b : ℚ) :
    ∃ q, f_measure examples c b = some q := by
  obtain ⟨p, hp, hp0⟩ := precision_some_nonneg examples c
  obtain ⟨r, hr, hr0⟩ := recall_some_nonneg examples c
  rw [f_measure, hp, hr]
  dsimp only
  by_cases h1 : p = 0 ∧ r = 0
  · rw [if_pos h1]
    exact ⟨0, rfl⟩
  rw [if_neg h1]
  by_cases h2 : b = 0 ∧ r = 0
  · rw [if_pos h2]
    exact ⟨0, rfl⟩
  rw [if_neg h2]
  have hden : b * b * p + r ≠ 0 := by
    by_cases hrz : r = 0
    · have hpz : p ≠ 0 := fun hpz => h1 ⟨hpz, hrz⟩
      have hbz : b ≠ 0 := fun hbz => h2 ⟨hbz, hrz⟩
      have hpp : 0 < p := hp0.lt_of_ne (Ne.symm hpz)
      have hbb : 0 < b * b := mul_self_pos.mpr hbz
      have : 0 < b * b * p := mul_pos hbb hpp
      rw [hrz]
      nlinarith
    · have : 0 < r := hr0.lt_of_ne (Ne.symm hrz)
      nlinarith [mul_nonneg (mul_self_nonneg b) hp0]
  rw [qdiv, if_neg hden]
  exact ⟨_, rfl⟩

theorem accuracy_some (examples : List Example) : ∃ q, accuracy examples = some q := by
  rw [accuracy]
  split_ifs with h
  · exact ⟨0, rfl⟩
  · rw [qdiv, if_neg (by exact_mod_cast h : ((example_count examples : ℚ)) ≠ 0)]
    exact ⟨_, rfl⟩

theorem macro_precision_some (examples : List Example) :
    ∃ q, macro_precision examples = some q := by
  obtain ⟨p1, hp1, _⟩ := precision_some_nonneg examples Category.POS
  obtain ⟨p2, hp2, _⟩ := precision_some_nonneg examples Category.NEG
  rw [macro_precision]
  simp only [Category.values, List.mapM_cons, List.mapM_nil, hp1, hp2, Option.bind_eq_bind,
    Option.some_bind, Option.pure_def]
  rw [qdiv, if_neg (by norm_num)]
  exact ⟨_, rfl⟩

theorem macro_recall_some (examples : List Example) :
    ∃ q, macro_recall examples = some q := by
  obtain ⟨r1, hr1, _⟩ := recall_some_nonneg examples Category.POS
  obtain ⟨r2, hr2, _⟩ := recall_some_nonneg examples Category.NEG
  rw [macro_recall]
  simp only [Category.values, List.mapM_cons, List.mapM_nil, hr1, hr2, Option.bind_eq_bind,
    Option.some_bind, Option.pure_def]
  rw [qdiv, if_neg (by norm_num)]
  exact ⟨_, rfl⟩

theorem micro_precision_den_zero_iff (examples : List Example) :
    ((Category.values.map
        (fun c => (cdata examples c true + cdata examples c false : ℚ))).sum = 0) ↔
      ∀ e ∈ examples, e.predicted = Category.NONE := by
  have h1 := cdata_split examples Category.POS
  have h2 := cdata_split examples Category.NEG
  rw [Category.values]
  simp only [List.map_cons, List.map_nil, List.sum_cons, List.sum_nil, add_zero]
  rw [← pred_filter_zero_iff examples]
  constructor
  · intro h
    have hnat : cdata examples Category.POS true + cdata examples Category.POS false +
        (cdata examples Category.NEG true + cdata examples Category.NEG false) = 0 := by
      exact_mod_cast h
    omega
  · rintro ⟨hP, hN⟩
    have hnat : cdata examples Category.POS true + cdata examples Category.POS false +
        (cdata examples Category.NEG true + cdata examples Category.NEG false) = 0 := by
      omega
    exact_mod_cast hnat

theorem micro_recall_den_zero_iff (examples : List Example) :
    ((Category.values.map (fun c =>
        (cdata examples c true : ℚ) +
          ((Category.values.filter (fun c1 => decide (c1 ≠ c))).map
            (fun c1 => (cdata examples c1 false : ℚ))).sum)).sum = 0) ↔
      ∀ e ∈ examples, e.predicted = Category.NONE := by
  have h1 := cdata_split examples Category.POS
  have h2 := cdata_split examples Category.NEG
  have hfP : ([Category.POS, Category.NEG] : List Category).filter
      (fun c1 => decide (c1 ≠ Category.POS)) = [Category.NEG] := rfl
  have hfN : ([Category.POS, Category.NEG] : List Category).filter
      (fun c1 => decide (c1 ≠ Category.NEG)) = [Category.POS] := rfl
  rw [Category.values]
  simp only [List.map_cons, List.map_nil, List.sum_cons, List.sum_nil, add_zero, hfP, hfN]
  rw [← pred_filter_zero_iff examples]
  constructor
  · intro h
    have hnat : cdata examples Category.POS true + cdata examples Category.NEG false +
        (cdata examples Category.NEG true + cdata examples Category.POS false) = 0 := by
      exact_mod_cast h
    omega
  · rintro ⟨hP, hN⟩
    have hnat : cdata examples Category.POS true + cdata examples Category.NEG false +
        (cdata examples Category.NEG true + cdata examples Category.POS false) = 0 := by
      omega
    exact_mod_cast hnat

theorem micro_precision_none_iff (examples : List Example) :
    micro_precision examples = none ↔ ∀ e ∈ examples, e.predicted = Category.NONE := by
  rw [micro_precision, qdiv]
  split_ifs with h
  · exact iff_of_true rfl ((micro_precision_den_zero_iff examples).mp h)
  · exact iff_of_false (by simp)
      (fun hall => h ((micro_precision_den_zero_iff examples).mpr hall))

theorem micro_recall_none_iff (examples : List Example) :
    micro_recall examples = none ↔ ∀ e ∈ examples, e.predicted = Category.NONE := by
  rw [micro_recall, qdiv]
  split_ifs with h
  · exact iff_of_true rfl ((micro_recall_den_zero_iff examples).mp h)
  · exact iff_of_false (by simp)
      (fun hall => h ((micro_recall_den_zero_iff examples).mpr hall))

/-- C8: for every evaluation snapshot and every category,
`precision(c)` returns 1 whenever its denominator
`truePositive(c) + falsePositive(c)` is 0, and `recall(c)` returns 0
whenever its denominator `truePositive(c)` plus the sum of
`falsePositive` over the other categories is 0. -/
theorem c8_precision_recall_zero_denominator (examples : List Example) (c : Category)
    (hc : c ∈ Category.values) :
    (cdata examples c true + cdata examples c false = 0 →
      precision examples c = some 1) ∧
    (cdata examples c true +
        ((Category.values.filter (fun c1 => decide (c1 ≠ c))).map
          (fun c1 => cdata examples c1 false)).sum = 0 →
      «recall» examples c = some 0) := by
  constructor
  · intro h
    rw [precision, if_pos h]
  · intro h
    rw [«recall», if_pos h]

theorem c8_precision_recall_zero_denominator_witness :
    Category.POS ∈ Category.values ∧
    precision [] Category.POS = some 1 ∧
    «recall» [] Category.POS = some 0 :=
  ⟨by decide,
    (c8_precision_recall_zero_denominator [] Category.POS (by decide)).1 rfl,
    (c8_precision_recall_zero_denominator [] Category.POS (by decide)).2 rfl⟩

/-- C9 counterexample: on the empty collection of classified examples
(denominator 0), `micro_precision` and `micro_recall` perform their
division unguarded — the Python code raises `ZeroDivisionError`,
modelled by `none` — instead of returning a defined value. -/
theorem c9_micro_raises_counterexample :
    micro_precision [] = none ∧ micro_recall [] = none :=
  ⟨(micro_precision_none_iff []).mpr (by simp),
    (micro_recall_none_iff []).mpr (by simp)⟩

/-- C9 (amended): for every collection of classified examples,
`accuracy`, `precision`, `recall`, `f_measure`, `macro_precision` and
`macro_recall` return an explicitly defined value in every
zero-denominator case, but `micro_precision` and `micro_recall` divide
unguarded and raise `ZeroDivisionError` (modelled as `none`) exactly
when no example has a non-NONE predicted category — in particular on the
empty collection. -/
theorem c9_guards_amended (examples : List Example) (c : Category) (b : ℚ)
    (hc : c ∈ Category.values) :
    (∃ q, accuracy examples = some q) ∧
    (∃ q, precision examples c = some q) ∧
    (∃ q, «recall» examples c = some q) ∧
    (∃ q, f_measure examples c b = some q) ∧
    (∃ q, macro_precision examples = some q) ∧
    (∃ q, macro_recall examples = some q) ∧
    (micro_precision examples = none ↔ ∀ e ∈ examples, e.predicted = Category.NONE) ∧
    (micro_recall examples = none ↔ ∀ e ∈ examples, e.predicted = Category.NONE) := by
  obtain ⟨p, hp, _⟩ := precision_some_nonneg examples c
  obtain ⟨r, hr, _⟩ := recall_some_nonneg examples c
  exact ⟨accuracy_some examples, ⟨p, hp⟩, ⟨r, hr⟩, f_measure_some examples c b,
    macro_precision_some examples, macro_recall_some examples,
    micro_precision_none_iff examples, micro_recall_none_iff examples⟩

theorem c9_guards_amended_witness :
    Category.POS ∈ Category.values ∧
    ((∃ q, accuracy [exPaClassified] = some q) ∧
      (∃ q, precision [exPaClassified] Category.POS = some q) ∧
      (∃ q, «recall» [exPaClassified] Category.POS = some q) ∧
      (∃ q, f_measure [exPaClassified] Category.POS 0 = some q) ∧
      (∃ q, macro_precision [exPaClassified] = some q) ∧
      (∃ q, macro_recall [exPaClassified] = some q) ∧
      (micro_precision [exPaClassified] = none ↔
        ∀ e ∈ [exPaClassified], e.predicted = Category.NONE) ∧
      (micro_recall [exPaClassified] = none ↔
        ∀ e ∈ [exPaClassified], e.predicted = Category.NONE)) :=
  ⟨by decide, c9_guards_amended [exPaClassified] Category.POS 0 (by decide)⟩

theorem cdata_filter_ne_none (examples : List Example) (c : Category)
    (hc : c ≠ Category.NONE) (bl : Bool) :
    cdata (examples.filter (fun e => decide (e.predicted ≠ Category.NONE))) c bl =
      cdata examples c bl := by
  rw [cdata, cdata, List.filter_filter]
  refine congrArg List.length (List.filter_congr fun (e : Example) _ => ?_)
  by_cases hp : e.predicted = c
  · have hne : e.predicted ≠ Category.NONE := by rw [hp]; exact hc
    simp [hp, hne, hc]
  · simp [hp]

theorem precision_filter_ne_none (examples : List Example) (c : Category)
    (hc : c ≠ Category.NONE) :
    precision (examples.filter (fun e => decide (e.predicted ≠ Category.NONE))) c =
      precision examples c := by
  rw [precision, precision, cdata_filter_ne_none examples c hc true,
    cdata_filter_ne_none examples c hc false]

theorem recall_filter_ne_none (examples : List Example) (c : Category)
    (hc : c ∈ Category.values) :
    «recall» (examples.filter (fun e => decide (e.predicted ≠ Category.NONE))) c =
      «recall» examples c := by
  have hP := cdata_filter_ne_none examples Category.POS (by decide)
  have hN := cdata_filter_ne_none examples Category.NEG (by decide)
  have hc2 : c = Category.POS ∨ c = Category.NEG := by
    simpa [Category.values] using hc
  rcases hc2 with rfl | rfl
  · have hf : Category.values.filter (fun c1 => decide (c1 ≠ Category.POS)) =
        [Category.NEG] := rfl
    rw [«recall», «recall», hf]
    simp only [List.map_cons, List.map_nil, List.sum_cons, List.sum_nil, add_zero]
    rw [hP true, hN false]
  · have hf : Category.values.filter (fun c1 => decide (c1 ≠ Category.NEG)) =
        [Category.POS] := rfl
    rw [«recall», «recall», hf]
    simp only [List.map_cons, List.map_nil, List.sum_cons, List.sum_nil, add_zero]
    rw [hN true, hP false]

/-- C10: the evaluation accepts examples whose `predicted` field is NONE
without signalling an error; such examples are counted in the example
count dividing `accuracy` but contribute to no `_data` cell of any
category, so every confusion-based metric of the snapshot is unchanged
by removing them, while `accuracy` keeps them in its denominator only
(they lower accuracy like misclassifications while being invisible to
precision, recall and the micro/macro metrics). -/
theorem c10_none_predicted_invisible (examples : List Example) (c : Category) (b : ℚ)
    (hc : c ∈ Category.values) :
    (∀ bl : Bool,
      cdata (examples.filter (fun e => decide (e.predicted ≠ Category.NONE))) c bl =
        cdata examples c bl) ∧
    example_count examples = examples.length ∧
    precision (examples.filter (fun e => decide (e.predicted ≠ Category.NONE))) c =
      precision examples c ∧
    «recall» (examples.filter (fun e => decide (e.predicted ≠ Category.NONE))) c =
      «recall» examples c ∧
    f_measure (examples.filter (fun e => decide (e.predicted ≠ Category.NONE))) c b =
      f_measure examples c b ∧
    macro_precision (examples.filter (fun e => decide (e.predicted ≠ Category.NONE))) =
      macro_precision examples ∧
    macro_recall (examples.filter (fun e => decide (e.predicted ≠ Category.NONE))) =
      macro_recall examples ∧
    micro_precision (examples.filter (fun e => decide (e.predicted ≠ Category.NONE))) =
      micro_precision examples ∧
    micro_recall (examples.filter (fun e => decide (e.predicted ≠ Category.NONE))) =
      micro_recall examples ∧
    accuracy examples =
      (if examples.length = 0 then some 0
        else qdiv
          ((Category.values.map (fun c2 =>
            (cdata (examples.filter (fun e => decide (e.predicted ≠ Category.NONE)))
              c2 true : ℚ))).sum)
          ((examples.length : ℚ))) := by
  have hP := cdata_filter_ne_none examples Category.POS (by decide)
  have hN := cdata_filter_ne_none examples Category.NEG (by decide)
  have hcne : c ≠ Category.NONE := by
    have hc2 : c = Category.POS ∨ c = Category.NEG := by
      simpa [Category.values] using hc
    rcases hc2 with rfl | rfl <;> decide
  refine ⟨fun bl => cdata_filter_ne_none examples c hcne bl, rfl,
    precision_filter_ne_none examples c hcne, recall_filter_ne_none examples c hc,
    ?_, ?_, ?_, ?_, ?_, ?_⟩
  · rw [f_measure, f_measure, precision_filter_ne_none examples c hcne,
      recall_filter_ne_none examples c hc]
  · rw [macro_precision, macro_precision]
    simp only [Category.values, List.mapM_cons, List.mapM_nil]
    rw [precision_filter_ne_none examples Category.POS (by decide),
      precision_filter_ne_none examples Category.NEG (by decide)]
  · rw [macro_recall, macro_recall]
    simp only [Category.values, List.mapM_cons, List.mapM_nil]
    rw [recall_filter_ne_none examples Category.POS (by decide),
      recall_filter_ne_none examples Category.NEG (by decide)]
  · rw [micro_precision, micro_precision]
    simp only [Category.values, List.map_cons, List.map_nil, List.sum_cons, List.sum_nil]
    rw [hP true, hP false, hN true, hN false]
  · rw [micro_recall, micro_recall]
    have hfP : ([Category.POS, Category.NEG] : List Category).filter
        (fun c1 => decide (c1 ≠ Category.POS)) = [Category.NEG] := rfl
    have hfN : ([Category.POS, Category.NEG] : List Category).filter
        (fun c1 => decide (c1 ≠ Category.NEG)) = [Category.POS] := rfl
    simp only [Category.values, List.map_cons, List.map_nil, List.sum_cons, List.sum_nil,
      hfP, hfN]
    rw [hP true, hP false, hN true, hN false]
  · rw [accuracy]
    simp only [example_count, Category.values, List.map_cons, List.map_nil, List.sum_cons,
      List.sum_nil]
    rw [hP true, hN true]

theorem c10_none_predicted_invisible_witness :
    Category.POS ∈ Category.values ∧
    ((∀ bl : Bool,
        cdata ([exPn].filter (fun e => decide (e.predicted ≠ Category.NONE)))
            Category.POS bl = cdata [exPn] Category.POS bl) ∧
      example_count [exPn] = ([exPn] : List Example).length ∧
      precision ([exPn].filter (fun e => decide (e.predicted ≠ Category.NONE)))
          Category.POS = precision [exPn] Category.POS ∧
      «recall» ([exPn].filter (fun e => decide (e.predicted ≠ Category.NONE)))
          Category.POS = «recall» [exPn] Category.POS ∧
      f_measure ([exPn].filter (fun e => decide (e.predicted ≠ Category.NONE)))
          Category.POS 1 = f_measure [exPn] Category.POS 1 ∧
      macro_precision ([exPn].filter (fun e => decide (e.predicted ≠ Category.NONE))) =
        macro_precision [exPn] ∧
      macro_recall ([exPn].filter (fun e => decide (e.predicted ≠ Category.NONE))) =
        macro_recall [exPn] ∧
      micro_precision ([exPn].filter (fun e => decide (e.predicted ≠ Category.NONE))) =
        micro_precision [exPn] ∧
      micro_recall ([exPn].filter (fun e => decide (e.predicted ≠ Category.NONE))) =
        micro_recall [exPn] ∧
      accuracy [exPn] =
        (if ([exPn] : List Example).length = 0 then some 0
          else qdiv
            ((Category.values.map (fun c2 =>
              (cdata ([exPn].filter (fun e => decide (e.predicted ≠ Category.NONE)))
                c2 true : ℚ))).sum)
            ((([exPn] : List Example).length : ℚ)))) :=
  ⟨by decide, c10_none_predicted_invisible [exPn] Category.POS 1 (by decide)⟩

end ID3RF
